import Mathlib

/-!
Verification of the year-series decoding and rate-derivation pipeline of
`south-pole-tasks.py`: the functions `keys_integer`, `year_mapping`,
`rate_calc`, the per-year Sum loop and the `max` peak selection inside
`deforestation_rate`, and the `__main__` argument handling.

Python dicts are embedded as association lists in insertion order; Python
numbers feeding the rate division are embedded as rationals; a raised
exception is an `Except.error` carrying the exception's kind.
-/

namespace SouthPole

/-- Python exceptions the pipeline can raise: `ValueError` (a string that
`int()` cannot parse, or `max()` over an empty collection), `KeyError` (a
dict subscript on a missing key) and `ZeroDivisionError`. -/
inductive Err where
  | valueError
  | keyError
  | zeroDivisionError
deriving DecidableEq

instance {ε α : Type} [DecidableEq ε] [DecidableEq α] : DecidableEq (Except ε α) :=
  fun a b =>
    match a, b with
    | Except.ok x, Except.ok y =>
      if h : x = y then isTrue (by rw [h]) else isFalse (by simp [h])
    | Except.error e, Except.error f =>
      if h : e = f then isTrue (by rw [h]) else isFalse (by simp [h])
    | Except.ok _, Except.error _ => isFalse (by simp)
    | Except.error _, Except.ok _ => isFalse (by simp)

/-- Decimal digit value of a character, when it is one. -/
def digitVal (c : Char) : Option Nat :=
  if '0' ≤ c ∧ c ≤ '9' then some (c.toNat - '0'.toNat) else none

/-- Value of a non-empty all-digit character run, left to right. -/
def decNatCore : List Char → Nat → Option Nat
  | [], acc => some acc
  | c :: cs, acc =>
    match digitVal c with
    | some d => decNatCore cs (10 * acc + d)
    | none => none

/-- Python `int(s)` on a plain decimal string: an optional sign followed by
at least one digit yields the integer, anything else raises `ValueError`
(whitespace stripping and digit-group underscores, which the inputs here
never carry, are not modelled). -/
def pyInt (s : String) : Except Err Int :=
  match s.data with
  | [] => Except.error Err.valueError
  | '-' :: cs =>
    match cs, decNatCore cs 0 with
    | _ :: _, some n => Except.ok (-(n : Int))
    | _, _ => Except.error Err.valueError
  | '+' :: cs =>
    match cs, decNatCore cs 0 with
    | _ :: _, some n => Except.ok ((n : Int))
    | _, _ => Except.error Err.valueError
  | cs =>
    match decNatCore cs 0 with
    | some n => Except.ok ((n : Int))
    | none => Except.error Err.valueError

/-- A Python dict with integer keys as an association list in insertion
order; `dictInsert` is `d[k] = v`: an existing key keeps its position and
gets the new value, a new key is appended at the end. -/
def dictInsert {ν : Type} (d : List (Int × ν)) (k : Int) (v : ν) : List (Int × ν) :=
  if k ∈ d.map Prod.fst then d.map (fun p => if p.1 = k then (k, v) else p)
  else d ++ [(k, v)]

/-- The dict built by inserting a list of pairs left to right (the dict
comprehensions of `keys_integer` and `year_mapping`). -/
def dictOfPairs {ν : Type} (l : List (Int × ν)) : List (Int × ν) :=
  l.foldl (fun d p => dictInsert d p.1 p.2) []

/-- The key-parsing pass of `keys_integer`: every item's string key goes
through Python `int()`, in iteration order, the first failure raising
`ValueError`. (`sorted(years.items(), key=lambda item: int(item[0]))`
evaluates `int` on every key, and the comprehension `{int(key): value ...}`
parses the same keys again with the same results, so parsing once up front
is equivalent.) Keys are decimal digit strings with an optional sign;
Python's stripping of surrounding whitespace, which histogram keys never
carry, is not modelled. -/
def parseItems : List (String × ℚ) → Except Err (List (Int × ℚ))
  | [] => Except.ok []
  | (k, v) :: rest =>
    match pyInt k with
    | Except.error e => Except.error e
    | Except.ok n =>
      match parseItems rest with
      | Except.ok l => Except.ok ((n, v) :: l)
      | Except.error e => Except.error e

/-- The sort order of `keys_integer` (`key=lambda item: int(item[0])`),
taken on items whose keys are already parsed. -/
def keyRel (a b : Int × ℚ) : Prop := a.1 ≤ b.1

instance : DecidableRel keyRel :=
  fun a b => inferInstanceAs (Decidable (a.1 ≤ b.1))

instance : IsTotal (Int × ℚ) keyRel := ⟨fun a b => Int.le_total a.1 b.1⟩

instance : IsTrans (Int × ℚ) keyRel := ⟨fun _ _ _ hab hbc => le_trans hab hbc⟩

/-- The function `keys_integer(years)`: `{int(key): value for key, value in
sorted(years.items(), key=lambda item: int(item[0]))}`. Python's `sorted`
is a stable sort; a stable sort's output is unique for a total preorder, so
it is embedded as the stable `List.insertionSort` over the parsed items. -/
def keys_integer (years : List (String × ℚ)) : Except Err (List (Int × ℚ)) :=
  match parseItems years with
  | Except.ok l => Except.ok (dictOfPairs (List.insertionSort keyRel l))
  | Except.error e => Except.error e

/-- The fixed dict literal of `year_mapping`, `{1: 2000, 2: 2001, 3: 2003,
4: 2004, ..., 22: 2022}`, as the partial lookup `new_keys_mapping[key]`
(`none` is the `KeyError` case). -/
def new_keys_mapping (k : Int) : Option Int :=
  if k = 1 then some 2000 else if k = 2 then some 2001
  else if k = 3 then some 2003 else if k = 4 then some 2004
  else if k = 5 then some 2005 else if k = 6 then some 2006
  else if k = 7 then some 2007 else if k = 8 then some 2008
  else if k = 9 then some 2009 else if k = 10 then some 2010
  else if k = 11 then some 2011 else if k = 12 then some 2012
  else if k = 13 then some 2013 else if k = 14 then some 2014
  else if k = 15 then some 2015 else if k = 16 then some 2016
  else if k = 17 then some 2017 else if k = 18 then some 2018
  else if k = 19 then some 2019 else if k = 20 then some 2020
  else if k = 21 then some 2021 else if k = 22 then some 2022
  else none

/-- The per-item lookups of `year_mapping`'s comprehension, in iteration
order; a key outside the table raises `KeyError` at that item. -/
def mapYears : List (Int × ℚ) → Except Err (List (Int × ℚ))
  | [] => Except.ok []
  | (k, v) :: rest =>
    match new_keys_mapping k with
    | none => Except.error Err.keyError
    | some y =>
      match mapYears rest with
      | Except.ok l => Except.ok ((y, v) :: l)
      | Except.error e => Except.error e

/-- The function `year_mapping(sorted_unique_years)`:
`{new_keys_mapping[key]: value for key, value in sorted_unique_years.items()}`. -/
def year_mapping (sorted_unique_years : List (Int × ℚ)) : Except Err (List (Int × ℚ)) :=
  match mapYears sorted_unique_years with
  | Except.ok l => Except.ok (dictOfPairs l)
  | Except.error e => Except.error e

/-- The decoding stage (§4.3's `decode`): `keys_integer` followed by
`year_mapping`. -/
def decode (histogram : List (String × ℚ)) : Except Err (List (Int × ℚ)) :=
  match keys_integer histogram with
  | Except.ok s => year_mapping s
  | Except.error e => Except.error e

/-- Python tuple comparison on `(year, value)` items: the lexicographic
order used by `sorted(loss_dict.items())`. -/
def itemRel (a b : Int × ℚ) : Prop := a.1 < b.1 ∨ (a.1 = b.1 ∧ a.2 ≤ b.2)

instance : DecidableRel itemRel :=
  fun a b => inferInstanceAs (Decidable (a.1 < b.1 ∨ (a.1 = b.1 ∧ a.2 ≤ b.2)))

/-- The loop of `rate_calc`: `previous_value` starts as `None`; every item
after the first divides by the previous item's value (`ZeroDivisionError`
when that value is 0) and stores the rate under its year. -/
def rateLoop : Option ℚ → List (Int × ℚ) → List (Int × ℚ) → Except Err (List (Int × ℚ))
  | _, acc, [] => Except.ok acc
  | none, acc, (_, v) :: rest => rateLoop (some v) acc rest
  | some p, acc, (y, v) :: rest =>
    if p = 0 then Except.error Err.zeroDivisionError
    else rateLoop (some v) (dictInsert acc y ((v - p) / p)) rest

/-- The function `rate_calc(loss_dict)`: iterate `sorted(loss_dict.items())`
tracking the previous value; for each item after the first, emit
`(value - previous_value) / previous_value` under the item's year. -/
def rate_calc (loss_dict : List (Int × ℚ)) : Except Err (List (Int × ℚ)) :=
  rateLoop none [] (List.insertionSort itemRel loss_dict)

/-- Python `max(yearly_rate.items(), key=lambda x: x[1])` of line 146:
`ValueError` on an empty dict; otherwise a running maximum, replaced only on
a strictly greater rate, so the first maximal item in iteration order wins
ties. -/
def select_peak (yearly_rate : List (Int × ℚ)) : Except Err (Int × ℚ) :=
  match yearly_rate with
  | [] => Except.error Err.valueError
  | x :: xs => Except.ok (xs.foldl (fun best p => if best.2 < p.2 then p else best) x)

/-- A raster pixel of the clipped region: the Hansen band values and the
pixel's true ground area in square meters (`ee.Image.pixelArea`). -/
structure Pixel where
  treecover2000 : Int
  gain : Int
  loss : Int
  lossyear : Int
  area : ℚ
deriving DecidableEq

/-- The per-year remote Sum of `deforestation_rate` (lines 133-140):
`loss_mask = lossyear_band.eq(year)` is a 0/1 mask and
`reduceRegion(ee.Reducer.sum())` adds the mask values over the region; the
mask is not multiplied by `ee.Image.pixelArea()`. -/
def loss_for_year (pixels : List Pixel) (year : Int) : ℚ :=
  (pixels.map (fun p => if p.lossyear = year then (1 : ℚ) else 0)).sum

/-- The area-weighted per-year Sum the spec describes: the analogue of
`stable_forest`'s `.multiply(ee.Image.pixelArea())` reduction, which
`deforestation_rate` does not perform. -/
def loss_area_for_year (pixels : List Pixel) (year : Int) : ℚ :=
  (pixels.map (fun p => (if p.lossyear = year then (1 : ℚ) else 0) * p.area)).sum

/-- The `index_loss_sum` dict of `deforestation_rate`: one per-year Sum for
each key of `sorted_unique_years`, inserted in iteration order. -/
def index_loss_sum (pixels : List Pixel) (sorted_unique_years : List (Int × ℚ)) :
    List (Int × ℚ) :=
  sorted_unique_years.foldl (fun d p => dictInsert d p.1 (loss_for_year pixels p.1)) []

/-- The data path of `deforestation_rate` after the remote frequency
histogram returns (`years`): `keys_integer`, the per-year Sum loop,
`year_mapping`, `rate_calc`, then the `max` peak selection of lines 146-147. -/
def deforestation_rate_core (pixels : List Pixel) (years : List (String × ℚ)) :
    Except Err (Int × ℚ) :=
  match keys_integer years with
  | Except.error e => Except.error e
  | Except.ok sorted_unique_years =>
    match year_mapping (index_loss_sum pixels sorted_unique_years) with
    | Except.error e => Except.error e
    | Except.ok year_loss_sum =>
      match rate_calc year_loss_sum with
      | Except.error e => Except.error e
      | Except.ok yearly_rate => select_peak yearly_rate

/-- Observable outcome of the `__main__` block (lines 209-217): the usage
text printed and `sys.exit(1)`; or the argument parsed and `main` entered;
or an uncaught `ValueError` from `int(sys.argv[1])`, which ends the process
with a non-zero status and no usage text. -/
inductive CliOutcome where
  | usageExit
  | runMain (gaul_code : Int)
  | uncaughtValueError
deriving DecidableEq

/-- The `__main__` argument handling: `len(sys.argv) != 2 or sys.argv[1] ==
"--help"` prints the usage and exits 1; otherwise `int(sys.argv[1])` either
yields the code passed to `main` or raises `ValueError`. -/
def cli (argv : List String) : CliOutcome :=
  match argv with
  | [_, arg] =>
    if arg = "--help" then CliOutcome.usageExit
    else
      match pyInt arg with
      | Except.ok n => CliOutcome.runMain n
      | Except.error _ => CliOutcome.uncaughtValueError
  | _ => CliOutcome.usageExit

/-- Whether the usage/help text is printed in a given outcome. -/
def printsUsage : CliOutcome → Bool
  | CliOutcome.usageExit => true
  | _ => false

/-- Whether the process ends with a non-zero exit status at argument
handling, before `main` runs. -/
def exitsNonZero : CliOutcome → Bool
  | CliOutcome.usageExit => true
  | CliOutcome.uncaughtValueError => true
  | CliOutcome.runMain _ => false

/-- The strict key order on parsed items; used to compare the sorted lists
two permuted histograms produce. -/
def keyLT (a b : Int × ℚ) : Prop := a.1 < b.1

instance : IsAntisymm (Int × ℚ) keyLT :=
  ⟨fun _ _ h h' => absurd h' (lt_asymm h)⟩

/-- Total version of `pyInt` on keys known to parse (0 on failure). -/
def pyIntD (s : String) : Int :=
  match pyInt s with
  | Except.ok n => n
  | Except.error _ => 0

/-- The list `year_mapping`'s comprehension produces when every key is in
the table. -/
def mapYearsFn (d : List (Int × ℚ)) : List (Int × ℚ) :=
  d.map (fun p => ((new_keys_mapping p.1).getD 0, p.2))

/-- One in-region pixel with loss-year index 1 and a realistic 30 m ground
area of 900 m². -/
def demoPixels : List Pixel :=
  [{ treecover2000 := 50, gain := 0, loss := 1, lossyear := 1, area := 900 }]

/-! ### Dictionary lemmas -/

theorem dictInsert_of_not_mem {ν : Type} {d : List (Int × ν)} {k : Int} {v : ν}
    (h : k ∉ d.map Prod.fst) : dictInsert d k v = d ++ [(k, v)] := by
  simp [dictInsert, h]

theorem keys_dictInsert_of_mem {ν : Type} {d : List (Int × ν)} {k : Int} {v : ν}
    (h : k ∈ d.map Prod.fst) :
    (dictInsert d k v).map Prod.fst = d.map Prod.fst := by
  simp only [dictInsert, if_pos h, List.map_map]
  refine List.map_congr_left (fun p _ => ?_)
  by_cases hp : p.1 = k <;> simp [hp]

theorem keys_dictFold {ν : Type} :
    ∀ (l d : List (Int × ν)) (a : Int),
      (a ∈ (l.foldl (fun d p => dictInsert d p.1 p.2) d).map Prod.fst) ↔
        (a ∈ d.map Prod.fst ∨ a ∈ l.map Prod.fst)
  | [], _, _ => by simp
  | (k, v) :: rest, d, a => by
    rw [List.foldl_cons, keys_dictFold rest (dictInsert d k v) a]
    by_cases hk : k ∈ d.map Prod.fst
    · rw [keys_dictInsert_of_mem hk]
      constructor
      · rintro (h | h) <;> simp_all
      · rintro (h | h)
        · exact Or.inl h
        · rcases (List.mem_cons).1 h with h | h
          · exact Or.inl (h ▸ hk)
          · exact Or.inr h
    · rw [dictInsert_of_not_mem hk]
      simp only [List.map_append, List.mem_append, List.map_cons, List.mem_cons]
      constructor
      · rintro ((h | h) | h) <;> simp_all
      · rintro (h | (h | h))
        · exact Or.inl (Or.inl h)
        · exact Or.inl (Or.inr (by simp [h]))
        · exact Or.inr h

theorem mem_keys_dictOfPairs {ν : Type} (l : List (Int × ν)) (a : Int) :
    a ∈ (dictOfPairs l).map Prod.fst ↔ a ∈ l.map Prod.fst := by
  rw [dictOfPairs, keys_dictFold]
  simp

theorem dictFold_eq_append {ν : Type} :
    ∀ (l d : List (Int × ν)), ((d ++ l).map Prod.fst).Nodup →
      l.foldl (fun d p => dictInsert d p.1 p.2) d = d ++ l
  | [], d, _ => by simp
  | (k, v) :: rest, d, h => by
    have hk : k ∉ d.map Prod.fst := by
      intro hmem
      rw [List.map_append] at h
      exact (List.disjoint_of_nodup_append h) hmem (by simp)
    rw [List.foldl_cons, dictInsert_of_not_mem hk,
      dictFold_eq_append rest (d ++ [(k, v)]) (by simpa using h)]
    simp

theorem dictOfPairs_eq_self {ν : Type} {l : List (Int × ν)}
    (h : (l.map Prod.fst).Nodup) : dictOfPairs l = l := by
  have := dictFold_eq_append l ([] : List (Int × ν)) (by simpa using h)
  simpa [dictOfPairs] using this

/-! ### Key-parsing lemmas -/

theorem parseItems_eq_map : ∀ {h : List (String × ℚ)} {l : List (Int × ℚ)},
    parseItems h = Except.ok l → l = h.map (fun p => (pyIntD p.1, p.2))
  | [], l, hp => by
    simp only [parseItems, Except.ok.injEq] at hp
    simp [hp.symm]
  | (k, v) :: rest, l, hp => by
    simp only [parseItems] at hp
    cases hpi : pyInt k with
    | error e => rw [hpi] at hp; simp at hp
    | ok n =>
      rw [hpi] at hp
      cases hpr : parseItems rest with
      | error e => rw [hpr] at hp; simp at hp
      | ok l₂ =>
        rw [hpr] at hp
        simp only [Except.ok.injEq] at hp
        have ih := parseItems_eq_map hpr
        rw [← hp, ih]
        simp [pyIntD, hpi]

theorem parseItems_ok_mem : ∀ {h : List (String × ℚ)} {l : List (Int × ℚ)},
    parseItems h = Except.ok l → ∀ p ∈ h, ∃ n, pyInt p.1 = Except.ok n
  | [], _, _ => by simp
  | (k, v) :: rest, l, hp => by
    simp only [parseItems] at hp
    cases hpi : pyInt k with
    | error e => rw [hpi] at hp; simp at hp
    | ok n =>
      rw [hpi] at hp
      cases hpr : parseItems rest with
      | error e => rw [hpr] at hp; simp at hp
      | ok l₂ =>
        intro p hmem
        rcases List.mem_cons.1 hmem with rfl | hmem
        · exact ⟨n, hpi⟩
        · exact parseItems_ok_mem hpr p hmem

theorem parseItems_ok_of_forall : ∀ {h : List (String × ℚ)},
    (∀ p ∈ h, ∃ n, pyInt p.1 = Except.ok n) →
      parseItems h = Except.ok (h.map (fun p => (pyIntD p.1, p.2)))
  | [], _ => rfl
  | (k, v) :: rest, hall => by
    rcases hall (k, v) (by simp) with ⟨n, hn⟩
    have ih := parseItems_ok_of_forall (fun p hp => hall p (List.mem_cons_of_mem _ hp))
    simp [parseItems, hn, ih, pyIntD]

/-! ### Lookup-table lemmas -/

theorem nkm_out {k : Int} (hk : k < 1 ∨ 22 < k) : new_keys_mapping k = none := by
  unfold new_keys_mapping
  repeat rw [if_neg (by omega)]

set_option maxHeartbeats 1000000 in
theorem nkm_eq_some {k y : Int} (h : new_keys_mapping k = some y) :
    1 ≤ k ∧ k ≤ 22 ∧ ((k ≤ 2 ∧ y = k + 1999) ∨ (3 ≤ k ∧ y = k + 2000)) := by
  have hb : 1 ≤ k ∧ k ≤ 22 := by
    by_contra hb
    rw [nkm_out (by omega)] at h
    exact Option.noConfusion h
  obtain ⟨h1, h2⟩ := hb
  interval_cases k <;> simp [new_keys_mapping] at h <;> omega

theorem nkm_isSome (k : Int) : (new_keys_mapping k).isSome ↔ 1 ≤ k ∧ k ≤ 22 := by
  constructor
  · intro h
    rcases Option.isSome_iff_exists.1 h with ⟨y, hy⟩
    exact ⟨(nkm_eq_some hy).1, (nkm_eq_some hy).2.1⟩
  · rintro ⟨h1, h2⟩
    interval_cases k <;> decide

theorem nkm_mono {k₁ k₂ y₁ y₂ : Int} (h₁ : new_keys_mapping k₁ = some y₁)
    (h₂ : new_keys_mapping k₂ = some y₂) (hk : k₁ < k₂) : y₁ < y₂ := by
  obtain ⟨a1, a2, a3⟩ := nkm_eq_some h₁
  obtain ⟨b1, b2, b3⟩ := nkm_eq_some h₂
  rcases a3 with ⟨_, rfl⟩ | ⟨_, rfl⟩ <;> rcases b3 with ⟨_, rfl⟩ | ⟨_, rfl⟩ <;> omega

/-! ### Year-mapping lemmas -/

theorem mapYears_ok : ∀ (d : List (Int × ℚ)),
    (∀ p ∈ d, (new_keys_mapping p.1).isSome) → mapYears d = Except.ok (mapYearsFn d)
  | [], _ => rfl
  | (k, v) :: rest, h => by
    have hk : (new_keys_mapping k).isSome := h (k, v) (by simp)
    rcases Option.isSome_iff_exists.1 hk with ⟨y, hy⟩
    have ih := mapYears_ok rest (fun p hp => h p (List.mem_cons_of_mem _ hp))
    simp [mapYears, hy, ih, mapYearsFn]

theorem mapYears_err : ∀ (d : List (Int × ℚ)),
    (∃ p ∈ d, new_keys_mapping p.1 = none) → mapYears d = Except.error Err.keyError
  | [], h => by simp at h
  | (k, v) :: rest, h => by
    by_cases hk : new_keys_mapping k = none
    · simp [mapYears, hk]
    · rcases h with ⟨p, hp, hpn⟩
      rcases List.mem_cons.1 hp with rfl | hp
      · exact absurd hpn hk
      · have ih := mapYears_err rest ⟨p, hp, hpn⟩
        rcases Option.ne_none_iff_exists'.1 hk with ⟨y, hy⟩
        simp [mapYears, hy, ih]

theorem keys_integer_ok {h : List (String × ℚ)} {l : List (Int × ℚ)}
    (hp : parseItems h = Except.ok l) :
    keys_integer h = Except.ok (dictOfPairs (List.insertionSort keyRel l)) := by
  simp [keys_integer, hp]

/-- Sorting parsed items with pairwise-distinct keys yields strictly
ascending keys. -/
theorem sorted_keys_insertionSort (l : List (Int × ℚ))
    (hnodup : (l.map Prod.fst).Nodup) :
    ((List.insertionSort keyRel l).map Prod.fst).Pairwise (· < ·) := by
  have hs : (List.insertionSort keyRel l).Pairwise keyRel :=
    List.sorted_insertionSort keyRel l
  have hperm := List.perm_insertionSort keyRel l
  have hnodup' : ((List.insertionSort keyRel l).map Prod.fst).Nodup :=
    ((hperm.map Prod.fst).nodup_iff).2 hnodup
  have hne : (List.insertionSort keyRel l).Pairwise (fun p q => p.1 ≠ q.1) :=
    (List.pairwise_map).1 hnodup'
  exact (List.pairwise_map).2 ((hs.and hne).imp (fun h => lt_of_le_of_ne h.1 h.2))

/-- A series already sorted by strictly ascending keys is untouched by the
`sorted(...)` call of `rate_calc`. -/
theorem insertionSort_eq_of_sorted_keys {series : List (Int × ℚ)}
    (hsorted : (series.map Prod.fst).Pairwise (· < ·)) :
    List.insertionSort itemRel series = series :=
  List.Sorted.insertionSort_eq (((List.pairwise_map).1 hsorted).imp (fun h => Or.inl h))

/-! ### Rate-loop lemmas -/

theorem rateLoop_ok :
    ∀ (s : List (Int × ℚ)) (x : Int × ℚ) (acc : List (Int × ℚ)),
      (((x :: s).map Prod.fst).Pairwise (· < ·)) →
      (∀ q ∈ (x :: s).dropLast, q.2 ≠ 0) →
      (∀ y ∈ s.map Prod.fst, y ∉ acc.map Prod.fst) →
      rateLoop (some x.2) acc s =
        Except.ok (acc ++ List.zipWith (fun p q => (q.1, (q.2 - p.2) / p.2)) (x :: s) s)
  | [], _, acc, _, _, _ => by simp [rateLoop]
  | (y, v) :: rest, x, acc, hpw, hnz, hacc => by
    have hx0 : x.2 ≠ 0 := hnz x (by simp)
    have hy_not : y ∉ acc.map Prod.fst := hacc y (by simp)
    simp only [List.map_cons] at hpw
    have hpw' := (List.pairwise_cons.1 hpw).2
    have hy_lt : ∀ z ∈ rest.map Prod.fst, y < z := fun z hz =>
      (List.pairwise_cons.1 hpw').1 z hz
    have IH := rateLoop_ok rest (y, v) (acc ++ [(y, (v - x.2) / x.2)])
      (by simpa using hpw')
      (by
        intro q hq
        exact hnz q (by simpa using Or.inr hq))
      (by
        intro z hz
        simp only [List.map_append, List.mem_append, List.map_cons, List.map_nil]
        rintro (hin | hin)
        · exact hacc z (by simp [hz]) hin
        · have : z = y := by simpa using hin
          exact absurd this (hy_lt z hz).ne')
    rw [rateLoop, if_neg hx0, dictInsert_of_not_mem hy_not, IH]
    simp [List.zipWith]

theorem rateLoop_err :
    ∀ (s : List (Int × ℚ)) (p : ℚ) (acc : List (Int × ℚ)),
      ((p = 0 ∧ s ≠ []) ∨ ∃ q ∈ s.dropLast, q.2 = 0) →
      rateLoop (some p) acc s = Except.error Err.zeroDivisionError
  | [], _, _, h => by
    rcases h with ⟨_, hne⟩ | ⟨q, hq, _⟩
    · exact absurd rfl hne
    · simp at hq
  | (y, v) :: rest, p, acc, h => by
    by_cases hp : p = 0
    · simp [rateLoop, hp]
    · rcases h with ⟨hp0, _⟩ | ⟨q, hq, hq0⟩
      · exact absurd hp0 hp
      · cases rest with
        | nil => simp at hq
        | cons r rs =>
          have hdl : ((y, v) :: r :: rs).dropLast = (y, v) :: (r :: rs).dropLast := by
            simp
          rw [hdl] at hq
          rw [rateLoop, if_neg hp]
          rcases List.mem_cons.1 hq with rfl | hq
          · exact rateLoop_err (r :: rs) _ _ (Or.inl ⟨hq0, by simp⟩)
          · exact rateLoop_err (r :: rs) _ _ (Or.inr ⟨q, hq, hq0⟩)

/-! ### Peak-selection lemma -/

theorem peakFold :
    ∀ (xs : List (Int × ℚ)) (x : Int × ℚ),
      (xs.foldl (fun best p => if best.2 < p.2 then p else best) x = x ∧
        ∀ q ∈ xs, q.2 ≤ x.2) ∨
      (∃ pre p post, xs = pre ++ p :: post ∧
        xs.foldl (fun best p => if best.2 < p.2 then p else best) x = p ∧
        x.2 < p.2 ∧ (∀ q ∈ pre, q.2 < p.2) ∧ (∀ q ∈ xs, q.2 ≤ p.2))
  | [], x => Or.inl ⟨rfl, by simp⟩
  | y :: ys, x => by
    rw [List.foldl_cons]
    by_cases hxy : x.2 < y.2
    · rw [if_pos hxy]
      rcases peakFold ys y with ⟨heq, hall⟩ | ⟨pre, p, post, hsplit, heq, hlt, hpre, hall⟩
      · refine Or.inr ⟨[], y, ys, by simp, heq, hxy, by simp, ?_⟩
        intro q hq
        rcases List.mem_cons.1 hq with rfl | hq
        · exact le_refl _
        · exact hall q hq
      · refine Or.inr ⟨y :: pre, p, post, by simp [hsplit], heq, lt_trans hxy hlt, ?_, ?_⟩
        · intro q hq
          rcases List.mem_cons.1 hq with rfl | hq
          · exact hlt
          · exact hpre q hq
        · intro q hq
          rcases List.mem_cons.1 hq with rfl | hq
          · exact le_of_lt hlt
          · exact hall q hq
    · rw [if_neg hxy]
      push_neg at hxy
      rcases peakFold ys x with ⟨heq, hall⟩ | ⟨pre, p, post, hsplit, heq, hlt, hpre, hall⟩
      · refine Or.inl ⟨heq, ?_⟩
        intro q hq
        rcases List.mem_cons.1 hq with rfl | hq
        · exact hxy
        · exact hall q hq
      · refine Or.inr ⟨y :: pre, p, post, by simp [hsplit], heq, hlt, ?_, ?_⟩
        · intro q hq
          rcases List.mem_cons.1 hq with rfl | hq
          · exact lt_of_le_of_lt hxy hlt
          · exact hpre q hq
        · intro q hq
          rcases List.mem_cons.1 hq with rfl | hq
          · exact le_trans hxy (le_of_lt hlt)
          · exact hall q hq

/-! ### Per-year Sum lemma -/

theorem loss_for_year_eq_count (pixels : List Pixel) (year : Int) :
    loss_for_year pixels year =
      ((pixels.filter (fun q => q.lossyear = year)).length : ℚ) := by
  induction pixels with
  | nil => simp [loss_for_year]
  | cons p ps ih =>
    rw [loss_for_year, List.map_cons, List.sum_cons, ← loss_for_year, ih,
      List.filter_cons]
    by_cases h : p.lossyear = year
    · simp only [h, decide_True, if_true, List.length_cons]
      push_cast
      ring
    · simp [h]

/-! ### Claim theorems -/

/-- C1: for every histogram whose keys parse to pairwise-distinct integers
all inside the lookup table's domain, `decode` (`keys_integer` followed by
`year_mapping`) returns a year series whose years are strictly ascending in
iteration order and whose number of entries equals the histogram's number
of keys; the empty histogram decodes to the empty series without error. -/
theorem C1_decode_sorted_sized (hist : List (String × ℚ)) (l : List (Int × ℚ))
    (hparse : parseItems hist = Except.ok l)
    (hnodup : (l.map Prod.fst).Nodup)
    (hdom : ∀ p ∈ l, (new_keys_mapping p.1).isSome) :
    (∃ ys, decode hist = Except.ok ys ∧ (ys.map Prod.fst).Pairwise (· < ·) ∧
      ys.length = hist.length) ∧
    decode [] = Except.ok [] := by
  refine ⟨?_, by decide⟩
  have hperm : (List.insertionSort keyRel l).Perm l := List.perm_insertionSort keyRel l
  have hkeys_lt : ((List.insertionSort keyRel l).map Prod.fst).Pairwise (· < ·) :=
    sorted_keys_insertionSort l hnodup
  have hkeys_nodup : ((List.insertionSort keyRel l).map Prod.fst).Nodup :=
    hkeys_lt.imp (fun h => ne_of_lt h)
  have hki : keys_integer hist = Except.ok (List.insertionSort keyRel l) := by
    rw [keys_integer_ok hparse, dictOfPairs_eq_self hkeys_nodup]
  have hdom_s : ∀ p ∈ List.insertionSort keyRel l, (new_keys_mapping p.1).isSome :=
    fun p hp => hdom p (hperm.subset hp)
  have hmy := mapYears_ok _ hdom_s
  have hys_lt : ((mapYearsFn (List.insertionSort keyRel l)).map Prod.fst).Pairwise (· < ·) := by
    rw [mapYearsFn, List.map_map]
    refine (List.pairwise_map).2 ?_
    refine List.Pairwise.imp_of_mem ?_ ((List.pairwise_map).1 hkeys_lt)
    intro p q hp hq hlt
    rcases Option.isSome_iff_exists.1 (hdom_s p hp) with ⟨y₁, hy₁⟩
    rcases Option.isSome_iff_exists.1 (hdom_s q hq) with ⟨y₂, hy₂⟩
    simpa [Function.comp, hy₁, hy₂] using nkm_mono hy₁ hy₂ hlt
  have hys_nodup : ((mapYearsFn (List.insertionSort keyRel l)).map Prod.fst).Nodup :=
    hys_lt.imp (fun h => ne_of_lt h)
  have hym : year_mapping (List.insertionSort keyRel l) =
      Except.ok (mapYearsFn (List.insertionSort keyRel l)) := by
    simp [year_mapping, hmy, dictOfPairs_eq_self hys_nodup]
  refine ⟨mapYearsFn (List.insertionSort keyRel l), ?_, hys_lt, ?_⟩
  · simp [decode, hki, hym]
  · rw [mapYearsFn, List.length_map, hperm.length_eq, parseItems_eq_map hparse,
      List.length_map]

theorem C1_witness :
    (∃ ys, decode [("2", (5:ℚ)), ("10", 7), ("1", 3)] = Except.ok ys ∧
      (ys.map Prod.fst).Pairwise (· < ·) ∧
      ys.length = [("2", (5:ℚ)), ("10", 7), ("1", 3)].length) ∧
    decode [] = Except.ok [] :=
  C1_decode_sorted_sized [("2", 5), ("10", 7), ("1", 3)] [(2, 5), (10, 7), (1, 3)]
    (by decide) (by decide) (by decide)

/-- C2: the fixed lookup table maps index 1 to 2000 and 2 to 2001, never
produces 2002, maps 3 to 2003, is defined exactly on indices 1..22 ending
at 22 ↦ 2022, and consecutive defined indices differ by one year except for
the single gap between 2 and 3; `decode {"3": 5}` yields `{2003: 5}`. -/
theorem C2_lookup_table :
    new_keys_mapping 1 = some 2000 ∧ new_keys_mapping 2 = some 2001 ∧
    new_keys_mapping 3 = some 2003 ∧ new_keys_mapping 22 = some 2022 ∧
    (∀ k : Int, new_keys_mapping k ≠ some 2002) ∧
    (∀ k : Int, (new_keys_mapping k).isSome ↔ (1 ≤ k ∧ k ≤ 22)) ∧
    (∀ k y₁ y₂ : Int, new_keys_mapping k = some y₁ →
      new_keys_mapping (k + 1) = some y₂ → y₂ - y₁ = if k = 2 then 2 else 1) ∧
    decode [("3", 5)] = Except.ok [(2003, 5)] := by
  refine ⟨by decide, by decide, by decide, by decide, ?_, nkm_isSome, ?_, by decide⟩
  · intro k h
    obtain ⟨h1, h2, h3⟩ := nkm_eq_some h
    rcases h3 with ⟨hk, hy⟩ | ⟨hk, hy⟩ <;> omega
  · intro k y₁ y₂ h₁ h₂
    obtain ⟨a1, a2, a3⟩ := nkm_eq_some h₁
    obtain ⟨b1, b2, b3⟩ := nkm_eq_some h₂
    by_cases hk2 : k = 2
    · rw [if_pos hk2]
      rcases a3 with ⟨c, d⟩ | ⟨c, d⟩ <;> rcases b3 with ⟨e, f⟩ | ⟨e, f⟩ <;> omega
    · rw [if_neg hk2]
      rcases a3 with ⟨c, d⟩ | ⟨c, d⟩ <;> rcases b3 with ⟨e, f⟩ | ⟨e, f⟩ <;> omega

/-- C3: on a year series with strictly ascending years whose values are
nonzero except possibly the last, `rate_calc` emits, for each year after
the first, `(current − previous) / previous` keyed by that year, where the
previous entry is the immediately preceding year present in the series; an
empty or one-element series yields the empty rate series. -/
theorem C3_rate_calc_consecutive (series : List (Int × ℚ))
    (hsorted : (series.map Prod.fst).Pairwise (· < ·))
    (hnz : ∀ p ∈ series.dropLast, p.2 ≠ 0) :
    rate_calc series =
      Except.ok (List.zipWith (fun p q => (q.1, (q.2 - p.2) / p.2)) series series.tail) := by
  rw [rate_calc, insertionSort_eq_of_sorted_keys hsorted]
  cases series with
  | nil => simp [rateLoop]
  | cons x rest =>
    obtain ⟨xk, xv⟩ := x
    have h := rateLoop_ok rest (xk, xv) [] hsorted hnz (by simp)
    rw [rateLoop]
    simpa using h

theorem C3_witness :
    rate_calc [((2000:Int), (100:ℚ)), (2001, 150), (2002, 120)] =
      Except.ok [((2001:Int), (1:ℚ)/2), (2002, -1/5)] := by
  have h := C3_rate_calc_consecutive [((2000:Int), (100:ℚ)), (2001, 150), (2002, 120)]
    (by decide) (by decide)
  rw [h]
  norm_num [List.zipWith]

/-- C5: `rate_calc` fails with the division-by-zero error whenever a value
serving as a previous value — any entry other than the series' last — is
zero, rather than emitting a NaN or skipping the entry; in particular on
`{2000: 0, 2001: 10}`. -/
theorem C5_rate_calc_zero_division (series : List (Int × ℚ))
    (hsorted : (series.map Prod.fst).Pairwise (· < ·))
    (hz : ∃ p ∈ series.dropLast, p.2 = 0) :
    rate_calc series = Except.error Err.zeroDivisionError := by
  rw [rate_calc, insertionSort_eq_of_sorted_keys hsorted]
  cases series with
  | nil => simp at hz
  | cons x rest =>
    cases rest with
    | nil => simp at hz
    | cons r rs =>
      obtain ⟨xk, xv⟩ := x
      rw [rateLoop]
      apply rateLoop_err
      have hdl : ((xk, xv) :: r :: rs).dropLast = (xk, xv) :: (r :: rs).dropLast := by
        simp
      rw [hdl] at hz
      rcases hz with ⟨q, hq, hq0⟩
      rcases List.mem_cons.1 hq with rfl | hq
      · exact Or.inl ⟨hq0, by simp⟩
      · exact Or.inr ⟨q, hq, hq0⟩

theorem C5_witness :
    rate_calc [((2000:Int), (0:ℚ)), (2001, 10)] = Except.error Err.zeroDivisionError :=
  C5_rate_calc_zero_division [((2000:Int), (0:ℚ)), (2001, 10)] (by decide) (by decide)

/-- C6: on a non-empty rate series `select_peak` returns an entry of the
series whose rate is maximal and which is the first such entry in
iteration order (everything before it is strictly smaller); in particular
on `{2001: 0.5, 2002: −0.2, 2003: 0.5}` it returns `(2001, 0.5)`. -/
theorem C6_select_peak_first_max (rates : List (Int × ℚ)) (hne : rates ≠ []) :
    (∃ pre p post, rates = pre ++ p :: post ∧ select_peak rates = Except.ok p ∧
      (∀ q ∈ pre, q.2 < p.2) ∧ (∀ q ∈ rates, q.2 ≤ p.2)) ∧
    select_peak [((2001:Int), (1:ℚ)/2), (2002, -1/5), (2003, 1/2)] =
      Except.ok (2001, 1/2) := by
  constructor
  case right => norm_num [select_peak]
  case left =>
    cases rates with
    | nil => exact absurd rfl hne
    | cons x xs =>
      rcases peakFold xs x with ⟨heq, hall⟩ | ⟨pre, p, post, hsplit, heq, hlt, hpre, hall⟩
      · refine ⟨[], x, xs, by simp, by simp [select_peak, heq], by simp, ?_⟩
        intro q hq
        rcases List.mem_cons.1 hq with rfl | hq
        · exact le_refl _
        · exact hall q hq
      · refine ⟨x :: pre, p, post, by simp [hsplit], by simp [select_peak, heq], ?_, ?_⟩
        · intro q hq
          rcases List.mem_cons.1 hq with rfl | hq
          · exact hlt
          · exact hpre q hq
        · intro q hq
          rcases List.mem_cons.1 hq with rfl | hq
          · exact le_of_lt hlt
          · exact hall q hq

theorem C6_witness :
    (∃ pre p post,
      [((2001:Int), (1:ℚ)/2), (2002, -1/5), (2003, 1/2)] = pre ++ p :: post ∧
      select_peak [((2001:Int), (1:ℚ)/2), (2002, -1/5), (2003, 1/2)] = Except.ok p ∧
      (∀ q ∈ pre, q.2 < p.2) ∧
      (∀ q ∈ [((2001:Int), (1:ℚ)/2), (2002, -1/5), (2003, 1/2)], q.2 ≤ p.2)) ∧
    select_peak [((2001:Int), (1:ℚ)/2), (2002, -1/5), (2003, 1/2)] =
      Except.ok (2001, 1/2) :=
  C6_select_peak_first_max [((2001:Int), (1:ℚ)/2), (2002, -1/5), (2003, 1/2)]
    (by simp)

/-- C7: `decode` fails with the unmapped-index (`KeyError`) failure when
any histogram key, parsed as an integer, lies outside the lookup table's
domain — the index is never silently dropped; in particular on
`{"99": 1}`. -/
theorem C7_decode_unmapped_index (hist : List (String × ℚ)) (l : List (Int × ℚ))
    (hparse : parseItems hist = Except.ok l)
    (hbad : ∃ p ∈ l, new_keys_mapping p.1 = none) :
    decode hist = Except.error Err.keyError ∧
    decode [("99", 1)] = Except.error Err.keyError := by
  refine ⟨?_, by decide⟩
  rcases hbad with ⟨p, hp, hpn⟩
  have hp_s : p ∈ List.insertionSort keyRel l := (List.mem_insertionSort keyRel).2 hp
  have hkey : p.1 ∈ (dictOfPairs (List.insertionSort keyRel l)).map Prod.fst :=
    (mem_keys_dictOfPairs _ _).2 (List.mem_map.2 ⟨p, hp_s, rfl⟩)
  rcases List.mem_map.1 hkey with ⟨q, hq, hqk⟩
  have hqn : new_keys_mapping q.1 = none := by rw [hqk]; exact hpn
  have hmy := mapYears_err _ ⟨q, hq, hqn⟩
  simp [decode, keys_integer_ok hparse, year_mapping, hmy]

theorem C7_witness :
    decode [("99", (1:ℚ))] = Except.error Err.keyError ∧
    decode [("99", 1)] = Except.error Err.keyError :=
  C7_decode_unmapped_index [("99", 1)] [(99, 1)] (by decide) (by decide)

/-- C8: `select_peak` — the `max(yearly_rate.items(), ...)` call — on an
empty rate series fails with Python's `ValueError` (the spec's
`EmptySeriesError`) rather than returning any pair. -/
theorem C8_select_peak_empty : select_peak [] = Except.error Err.valueError := rfl

/-- C9 (counterexample): invoked with the unparseable argument `"abc"` the
program ends in an uncaught `ValueError` — a non-zero exit with NO usage
text printed, contradicting the claim that usage is printed whenever the
argument fails integer parsing. -/
theorem C9_counterexample_no_usage :
    cli ["south-pole-tasks.py", "abc"] = CliOutcome.uncaughtValueError ∧
    printsUsage CliOutcome.uncaughtValueError = false ∧
    exitsNonZero CliOutcome.uncaughtValueError = true := by decide

/-- C9 (amended): when the positional argument is missing (argument count
differs from one) or equals `--help`, the program prints the usage text and
exits with a non-zero status; when the argument fails integer parsing the
program exits with a non-zero status through an uncaught `ValueError`
without printing the usage text. -/
theorem C9_amended_cli (argv : List String) :
    ((argv.length ≠ 2 ∨ argv.get? 1 = some "--help") →
      cli argv = CliOutcome.usageExit ∧ printsUsage CliOutcome.usageExit = true ∧
      exitsNonZero CliOutcome.usageExit = true) ∧
    (∀ x a, argv = [x, a] → a ≠ "--help" → (∀ n, pyInt a ≠ Except.ok n) →
      cli argv = CliOutcome.uncaughtValueError ∧
      printsUsage CliOutcome.uncaughtValueError = false ∧
      exitsNonZero CliOutcome.uncaughtValueError = true) := by
  constructor
  · intro h
    refine ⟨?_, rfl, rfl⟩
    rcases argv with _ | ⟨x, _ | ⟨a, _ | ⟨b, rest⟩⟩⟩
    · rfl
    · rfl
    · rcases h with h | h
      · simp at h
      · have ha : a = "--help" := by simpa using h
        subst ha
        simp [cli]
    · rfl
  · rintro x a rfl hne hfail
    refine ⟨?_, rfl, rfl⟩
    simp only [cli, if_neg hne]
    cases hpi : pyInt a with
    | ok n => exact absurd hpi (hfail n)
    | error e => rfl

/-- C4 (counterexample): on a single pixel of ground area 900 m² whose
loss-year index is 1, the value the pipeline computes for index 1 and
feeds onward is the mask sum 1 (a pixel count), while the area-weighted
figure is 900 — the two differ, so the per-year Sum is not area-weighted. -/
theorem C4_counterexample_not_area_weighted :
    index_loss_sum demoPixels [(1, 1)] = [(1, 1)] ∧
    loss_area_for_year demoPixels 1 = 900 ∧
    loss_for_year demoPixels 1 ≠ loss_area_for_year demoPixels 1 := by
  refine ⟨?_, ?_, ?_⟩ <;>
    norm_num [index_loss_sum, dictInsert, loss_for_year, loss_area_for_year, demoPixels]

/-- C4 (amended): the per-year Sum aggregation sums the binary
loss-in-year mask, so each decoded index is paired with the pixel COUNT of
that year's loss (not an area-weighted figure), and it is these counts
that flow through `year_mapping` into `rate_calc` and the peak selection. -/
theorem C4_amended_counts_feed_rates (pixels : List Pixel) (idxs : List (Int × ℚ))
    (years : List (String × ℚ)) (s : List (Int × ℚ))
    (hnodup : (idxs.map Prod.fst).Nodup)
    (hki : keys_integer years = Except.ok s) :
    index_loss_sum pixels idxs =
      idxs.map (fun p => (p.1, ((pixels.filter (fun q => q.lossyear = p.1)).length : ℚ))) ∧
    deforestation_rate_core pixels years =
      (year_mapping (index_loss_sum pixels s)).bind (fun yls =>
        (rate_calc yls).bind (fun yr => select_peak yr)) := by
  constructor
  · have h1 : index_loss_sum pixels idxs =
        dictOfPairs (idxs.map (fun p => (p.1, loss_for_year pixels p.1))) := by
      rw [index_loss_sum, dictOfPairs, List.foldl_map]
    rw [h1, dictOfPairs_eq_self (by simpa [List.map_map, Function.comp] using hnodup)]
    exact List.map_congr_left (fun p _ => by rw [loss_for_year_eq_count])
  · rw [deforestation_rate_core, hki]
    cases hym : year_mapping (index_loss_sum pixels s) with
    | error e => simp [Except.bind, hym]
    | ok yls =>
      cases hrc : rate_calc yls with
      | error e => simp [Except.bind, hym, hrc]
      | ok yr => simp [Except.bind, hym, hrc]

theorem C4_witness :
    index_loss_sum demoPixels [((1:Int), (1:ℚ))] =
      [((1:Int), (1:ℚ))].map (fun p =>
        (p.1, ((demoPixels.filter (fun q => q.lossyear = p.1)).length : ℚ))) ∧
    deforestation_rate_core demoPixels [("1", (1:ℚ))] =
      (year_mapping (index_loss_sum demoPixels [((1:Int), (1:ℚ))])).bind (fun yls =>
        (rate_calc yls).bind (fun yr => select_peak yr)) :=
  C4_amended_counts_feed_rates demoPixels [(1, 1)] [("1", 1)] [(1, 1)]
    (by decide) (by decide)

/-- C10: `decode` is insensitive to the histogram's key order: two
histograms equal as collections of key-to-count pairs but presented in
different iteration orders decode identically, because keys are parsed and
then sorted numerically before the year lookup. -/
theorem C10_decode_order_insensitive (h₁ h₂ : List (String × ℚ)) (l : List (Int × ℚ))
    (hperm : h₁.Perm h₂)
    (hparse : parseItems h₁ = Except.ok l)
    (hnodup : (l.map Prod.fst).Nodup) :
    decode h₁ = decode h₂ := by
  have hl : l = h₁.map (fun p => (pyIntD p.1, p.2)) := parseItems_eq_map hparse
  have hok₂ : parseItems h₂ = Except.ok (h₂.map (fun p => (pyIntD p.1, p.2))) :=
    parseItems_ok_of_forall (fun p hp => parseItems_ok_mem hparse p (hperm.symm.subset hp))
  have hperm_l : l.Perm (h₂.map (fun p => (pyIntD p.1, p.2))) := by
    rw [hl]
    exact hperm.map _
  have hn₂ : ((h₂.map (fun p => (pyIntD p.1, p.2))).map Prod.fst).Nodup :=
    ((hperm_l.map Prod.fst).nodup_iff).1 hnodup
  have hperm_s : (List.insertionSort keyRel l).Perm
      (List.insertionSort keyRel (h₂.map (fun p => (pyIntD p.1, p.2)))) :=
    ((List.perm_insertionSort keyRel l).trans hperm_l).trans
      (List.perm_insertionSort keyRel _).symm
  have hs₁ : (List.insertionSort keyRel l).Pairwise keyLT := by
    have h := sorted_keys_insertionSort l hnodup
    rw [List.pairwise_map] at h
    exact h
  have hs₂ : (List.insertionSort keyRel
      (h₂.map (fun p => (pyIntD p.1, p.2)))).Pairwise keyLT := by
    have h := sorted_keys_insertionSort _ hn₂
    rw [List.pairwise_map] at h
    exact h
  have heq : List.insertionSort keyRel l =
      List.insertionSort keyRel (h₂.map (fun p => (pyIntD p.1, p.2))) :=
    List.eq_of_perm_of_sorted hperm_s hs₁ hs₂
  rw [decode, decode, keys_integer_ok hparse, keys_integer_ok hok₂, heq]

theorem C10_witness :
    decode [("2", (5:ℚ)), ("10", 7), ("1", 3)] =
      decode [("10", (7:ℚ)), ("1", 3), ("2", 5)] :=
  C10_decode_order_insensitive [("2", 5), ("10", 7), ("1", 3)]
    [("10", 7), ("1", 3), ("2", 5)] [(2, 5), (10, 7), (1, 3)]
    (by decide) (by decide) (by decide)

end SouthPole
